import Mathlib

/-!
Verification of `src/server/api/restify.js`: a route factory that, given a
model descriptor, generates seven REST route descriptors (create, get-by-id,
update, delete, count, list, find) proxying to a document store.

The JavaScript source is shallowly embedded below.  JavaScript objects used
as string-keyed maps are embedded as association lists `List (String × _)`
read through `List.lookup`; the handlers' single asynchronous store call with
its `then`/`catch` continuation is embedded as a function from a store oracle
`StoreCall → Except String String` to a record of the calls made, the replies
sent and the errors logged.
-/

namespace Restify

/-- The `Joi.number()` validation schema chain state: which constraints the
chain `Joi.number().integer().min(a).max(b).default(d).description(s)` has
recorded so far. -/
structure NumberSchema where
  isInteger : Bool := false
  minVal : Option Int := none
  maxVal : Option Int := none
  defaultVal : Option Int := none
  descr : Option String := none
  deriving Repr, DecidableEq

/-- The `Joi.string()` validation schema chain state. -/
structure StringSchema where
  regexVal : Option String := none
  defaultVal : Option String := none
  descr : Option String := none
  deriving Repr, DecidableEq

/-- `Joi.number()` -/
def Joi.number : NumberSchema := {}

/-- `.integer()` on a number schema -/
def NumberSchema.integer (s : NumberSchema) : NumberSchema := { s with isInteger := true }

/-- `.min(n)` on a number schema -/
def NumberSchema.min (s : NumberSchema) (n : Int) : NumberSchema := { s with minVal := some n }

/-- `.max(n)` on a number schema -/
def NumberSchema.max (s : NumberSchema) (n : Int) : NumberSchema := { s with maxVal := some n }

/-- `.default(n)` on a number schema -/
def NumberSchema.default (s : NumberSchema) (n : Int) : NumberSchema := { s with defaultVal := some n }

/-- `.description(d)` on a number schema -/
def NumberSchema.description (s : NumberSchema) (d : String) : NumberSchema := { s with descr := some d }

/-- `Joi.string()` -/
def Joi.string : StringSchema := {}

/-- `.regex(p)` on a string schema -/
def StringSchema.regex (s : StringSchema) (p : String) : StringSchema := { s with regexVal := some p }

/-- `.default(v)` on a string schema -/
def StringSchema.default (s : StringSchema) (v : String) : StringSchema := { s with defaultVal := some v }

/-- `.description(d)` on a string schema -/
def StringSchema.description (s : StringSchema) (d : String) : StringSchema := { s with descr := some d }

/-- `_JoiLimit`: Joi validation object for the `limit` query parameter. -/
def _JoiLimit : NumberSchema :=
  ((((Joi.number.integer).min 1).max 1000).default 10).description "limit. min = 1, max = 1000"

/-- `_JoiOffset`: Joi validation object for the `offset` query parameter. -/
def _JoiOffset : NumberSchema :=
  (((Joi.number.integer).min 0).default 0).description "offset. min = 0"

/-- `_JoiFields`: Joi validation object for the `fields` query parameter. -/
def _JoiFields : StringSchema :=
  (((Joi.string).regex "^[a-zA-Z0-9_,]+$").default "").description
    ("You can include or exclude fields in response. Fields should be separated by colon. " ++
     "To exclude field, just add in front of it -, for example: <code>-firstName,-lastname</code>")

/-- A value in a string-keyed Joi validation map: either one of the schemas
built in this file or an entry of the model's own (externally supplied)
payload schema. -/
inductive JoiVal where
  | num (s : NumberSchema)
  | str (s : StringSchema)
  | modelField (tag : String)
  deriving Repr, DecidableEq

/-- The model descriptor: an external duck-typed mongoose model, reframed per
the spec as `{name, fields, payloadSchema}`.  `joiValidate` is the opaque
payload validation schema `Model.joiValidate`, a string-keyed map. -/
structure Model where
  name : String
  fields : List String
  joiValidate : List (String × JoiVal)

namespace util

/-- Modelled from the spec: `util.getModelName` lives in `lib/util`, outside
`src/`; per the spec the descriptor exposes "a name (used to build URL path
segments)". -/
def getModelName (M : Model) : String := M.name

/-- Modelled from the spec: `util.getAllModelFields` lives in `lib/util`,
outside `src/`; per the spec the descriptor exposes "an ordered set of field
names", which this accessor returns. -/
def getAllModelFields (M : Model) : List String := M.fields

/-- Modelled from the spec: `util.getSchemaModelFields` lives in `lib/util`,
outside `src/`; per the spec both builders range over the descriptor's single
declared field set, so this returns the same field list. -/
def getSchemaModelFields (M : Model) : List String := M.fields

/-- Modelled from the spec: `util.getMongoIdRegexp` lives in `lib/util`,
outside `src/`; per the spec it is "a pattern an identifier string must
match" (the identifier format of the descriptor), modelled as an abstract
pattern constant. -/
def getMongoIdRegexp : String := "identifier-pattern"

end util

/-- An incoming HTTP request as the handlers see it: the parsed query-string
map `request.query`, the path parameter `request.params.id`, and the body
`request.payload` (opaque, kept as a string). -/
structure Request where
  query : List (String × String)
  paramsId : String
  payload : String

/-- Character-level worker for `jsSplit`: group a character list into the
(possibly empty) runs between separator occurrences. -/
def jsSplitAux (sep : Char) : List Char → List (List Char)
  | [] => [[]]
  | c :: cs =>
    match jsSplitAux sep cs with
    | [] => [[c]]
    | g :: gs => if c = sep then [] :: g :: gs else (c :: g) :: gs

/-- JavaScript `s.split(sep)` for a one-character separator: splits at every
occurrence, keeping empty pieces (`"".split(',') = [""]`,
`"a,,b".split(',') = ["a","","b"]`). -/
def jsSplit (s : String) (sep : Char) : List String :=
  (jsSplitAux sep s.toList).map (fun cs => String.mk cs)

/-- The token list the projection builder extracts from the url:
`_.get(request.query, 'fields', '').split(',').filter(value => value)`. -/
def urlFieldTokens (request : Request) : List String :=
  (jsSplit ((request.query.lookup "fields").getD "") ',').filter (fun v => v ≠ "")

/-- The `_.forEach(modelFields, ...)` loop of `_getSelectObjFromFieldsInUrl`:
for each declared field, an included field maps to 1, else an excluded
(`-`-prefixed) field maps to 0, else the field is skipped. -/
def selectLoop (urlFields : List String) : List String → List (String × Nat)
  | [] => []
  | field :: rest =>
    if field ∈ urlFields then (field, 1) :: selectLoop urlFields rest
    else if ("-" ++ field) ∈ urlFields then (field, 0) :: selectLoop urlFields rest
    else selectLoop urlFields rest

/-- `_getSelectObjFromFieldsInUrl(Model, request)`: build the mongodb
projection object from the `fields` query parameter. -/
def _getSelectObjFromFieldsInUrl (M : Model) (request : Request) : List (String × Nat) :=
  let urlFields := urlFieldTokens request
  if urlFields.isEmpty then []
  else selectLoop urlFields (util.getAllModelFields M)

/-- The `_.forEach(fields, ...)` loop of `_getQueryObjFromFieldsInUrl`: skip a
field whose query value is absent (`undefined`) or the empty string, else copy
the value unchanged. -/
def queryLoop (query : List (String × String)) : List String → List (String × String)
  | [] => []
  | field :: rest =>
    match query.lookup field with
    | none => queryLoop query rest
    | some v => if v = "" then queryLoop query rest else (field, v) :: queryLoop query rest

/-- `_getQueryObjFromFieldsInUrl(Model, request)`: build the mongodb query
object from recognized query parameters. -/
def _getQueryObjFromFieldsInUrl (M : Model) (request : Request) : List (String × String) :=
  queryLoop request.query (util.getSchemaModelFields M)

/-- The options object `{new: true}` passed to `findByIdAndUpdate`; mongoose's
default for `new` is `false` ("Note: by default it is false"). -/
structure UpdateOptions where
  new : Bool := false
  deriving Repr, DecidableEq

/-- The single store operation a handler dispatches: which mongoose call it
makes and with which arguments. -/
inductive StoreCall where
  | save (data : String)
  | findByIdSelect (id : String) (select : List (String × Nat))
  | findByIdAndUpdate (id : String) (data : String) (options : UpdateOptions)
  | remove (filter : List (String × String))
  | count (queryObj : List (String × String))
  | findSelectLimitSkip (queryObj : List (String × String)) (select : List (String × Nat))
      (limit offset : Option String)
  deriving Repr, DecidableEq

/-- The external document store, as an oracle: each call either resolves with
a record payload or rejects with an error. -/
def StoreFn : Type := StoreCall → Except String String

/-- What a handler did on one request: the store calls it dispatched, the
`reply(...)` invocations (success payload or error, on the one response
channel), and the `logger.error(...)` invocations. -/
structure HandlerOutput where
  calls : List StoreCall
  replies : List String
  logs : List String
  deriving Repr, DecidableEq

/-- The shared `promise.then(reply).catch((err) => { reply(err);
logger.error(err) })` continuation around a handler's single store call. -/
def runStoreCall (store : StoreFn) (c : StoreCall) : HandlerOutput :=
  match store c with
  | Except.ok r => { calls := [c], replies := [r], logs := [] }
  | Except.error e => { calls := [c], replies := [e], logs := [e] }

/-- `postHandler`: `new Model(request.payload)` then `user.save()`. -/
def postHandler (M : Model) (store : StoreFn) (request : Request) : HandlerOutput :=
  let _ := M
  let data := request.payload
  runStoreCall store (StoreCall.save data)

/-- `getHandler`: `Model.findById(id).select(select)`. -/
def getHandler (M : Model) (store : StoreFn) (request : Request) : HandlerOutput :=
  let id := request.paramsId
  let select := _getSelectObjFromFieldsInUrl M request
  runStoreCall store (StoreCall.findByIdSelect id select)

/-- `putHandler`: `Model.findByIdAndUpdate(id, data, {new: true})`. -/
def putHandler (M : Model) (store : StoreFn) (request : Request) : HandlerOutput :=
  let _ := M
  let id := request.paramsId
  let data := request.payload
  let options : UpdateOptions := { new := true }
  runStoreCall store (StoreCall.findByIdAndUpdate id data options)

/-- `deleteHandler`: `Model.remove({_id: id})`. -/
def deleteHandler (M : Model) (store : StoreFn) (request : Request) : HandlerOutput :=
  let _ := M
  let id := request.paramsId
  runStoreCall store (StoreCall.remove [("_id", id)])

/-- `countHandler`: `Model.count(queryObj)`. -/
def countHandler (M : Model) (store : StoreFn) (request : Request) : HandlerOutput :=
  let queryObj := _getQueryObjFromFieldsInUrl M request
  runStoreCall store (StoreCall.count queryObj)

/-- `listHandler`: `Model.find({}).select(select).limit(limit).skip(offset)`. -/
def listHandler (M : Model) (store : StoreFn) (request : Request) : HandlerOutput :=
  let limit := request.query.lookup "limit"
  let offset := request.query.lookup "offset"
  let select := _getSelectObjFromFieldsInUrl M request
  runStoreCall store (StoreCall.findSelectLimitSkip [] select limit offset)

/-- `findHandler`:
`Model.find(queryObj).select(select).limit(limit).skip(offset)`. -/
def findHandler (M : Model) (store : StoreFn) (request : Request) : HandlerOutput :=
  let limit := request.query.lookup "limit"
  let offset := request.query.lookup "offset"
  let queryObj := _getQueryObjFromFieldsInUrl M request
  let select := _getSelectObjFromFieldsInUrl M request
  runStoreCall store (StoreCall.findSelectLimitSkip queryObj select limit offset)

/-- The `validate` block of a route's config: optional `params`, `query` and
`payload` validation maps. -/
structure Validate where
  params : Option (List (String × JoiVal)) := none
  query : Option (List (String × JoiVal)) := none
  payload : Option (List (String × JoiVal)) := none
  deriving Repr, DecidableEq

/-- A route's `config` object. -/
structure RouteConfig where
  description : String
  tags : List String
  validate : Validate

/-- A route descriptor `{path, method, handler, config}` as returned by the
`_xxxRoute` factories. -/
structure Route where
  path : String
  method : String
  handler : StoreFn → Request → HandlerOutput
  config : RouteConfig

/-- `_.assign({}, a, b)` on string-keyed objects: each key of `a` keeps its
position but a key also present in `b` takes `b`'s value; keys only in `b`
are appended in order. -/
def objAssign (a b : List (String × JoiVal)) : List (String × JoiVal) :=
  (a.map fun p =>
    match b.lookup p.1 with
    | some v => (p.1, v)
    | none => p) ++
  b.filter fun p => (a.lookup p.1).isNone

/-- `_postRoute(Model)`: POST `/modelname`. -/
def _postRoute (M : Model) : Route :=
  let modelName := util.getModelName M
  { path := "/" ++ modelName
  , method := "POST"
  , handler := postHandler M
  , config :=
    { description := "Create new " ++ modelName
    , tags := ["api"]
    , validate := { payload := some M.joiValidate } } }

/-- `_getRoute(Model)`: GET `/modelname/{id}`. -/
def _getRoute (M : Model) : Route :=
  let modelName := util.getModelName M
  let idRegexp := util.getMongoIdRegexp
  { path := "/" ++ modelName ++ "/\x7bid\x7d"
  , method := "GET"
  , handler := getHandler M
  , config :=
    { description := "Get " ++ modelName ++ " instance by id"
    , tags := ["api"]
    , validate :=
      { params := some [("id", JoiVal.str ((Joi.string).regex idRegexp))]
      , query := some [("fields", JoiVal.str _JoiFields)] } } }

/-- `_putRoute(Model)`: PUT `/modelname/{id}`. -/
def _putRoute (M : Model) : Route :=
  let modelName := util.getModelName M
  let idRegexp := util.getMongoIdRegexp
  { path := "/" ++ modelName ++ "/\x7bid\x7d"
  , method := "PUT"
  , handler := putHandler M
  , config :=
    { description := "Update " ++ modelName ++ " instance by id"
    , tags := ["api"]
    , validate :=
      { params := some [("id", JoiVal.str ((Joi.string).regex idRegexp))]
      , payload := some M.joiValidate } } }

/-- `_deleteRoute(Model)`: DELETE `/modelname/{id}`. -/
def _deleteRoute (M : Model) : Route :=
  let modelName := util.getModelName M
  let idRegexp := util.getMongoIdRegexp
  { path := "/" ++ modelName ++ "/\x7bid\x7d"
  , method := "DELETE"
  , handler := deleteHandler M
  , config :=
    { description := "Delete " ++ modelName ++ " instance by id"
    , tags := ["api"]
    , validate :=
      { params := some [("id", JoiVal.str ((Joi.string).regex idRegexp))] } } }

/-- `_countRoute(Model)`: GET `/modelname/count`. -/
def _countRoute (M : Model) : Route :=
  let modelName := util.getModelName M
  { path := "/" ++ modelName ++ "/count"
  , method := "GET"
  , handler := countHandler M
  , config :=
    { description := "Return count instances in " ++ modelName ++ " model"
    , tags := ["api"]
    , validate := { query := some M.joiValidate } } }

/-- `_listRoute(Model)`: GET `/modelname/list`. -/
def _listRoute (M : Model) : Route :=
  let modelName := util.getModelName M
  { path := "/" ++ modelName ++ "/list"
  , method := "GET"
  , handler := listHandler M
  , config :=
    { description := "Return list of " ++ modelName ++ " instances"
    , tags := ["api"]
    , validate :=
      { query := some
          [("limit", JoiVal.num _JoiLimit)
          , ("offset", JoiVal.num _JoiOffset)
          , ("fields", JoiVal.str _JoiFields)] } } }

/-- `_findRoute(Model)`: GET `/modelname/find`; its query validation is
`_.assign({}, Model.joiValidate, {limit, offset, fields})`. -/
def _findRoute (M : Model) : Route :=
  let modelName := util.getModelName M
  { path := "/" ++ modelName ++ "/find"
  , method := "GET"
  , handler := findHandler M
  , config :=
    { description := "Return list of " ++ modelName ++ " instances"
    , tags := ["api"]
    , validate :=
      { query := some (objAssign M.joiValidate
          [("limit", JoiVal.num _JoiLimit)
          , ("offset", JoiVal.num _JoiOffset)
          , ("fields", JoiVal.str _JoiFields)]) } } }

/-- `restify(Model)`: the seven generated routes, in source order. -/
def restify (M : Model) : List Route :=
  [ _postRoute M
  , _getRoute M
  , _putRoute M
  , _deleteRoute M
  , _countRoute M
  , _listRoute M
  , _findRoute M ]

/-- Modelled from the spec: the external store's update-by-key is
`updateById(id, data, {returnUpdated:true}) -> record`; with `new` (the
`returnUpdated` flag) set it resolves with the record after the update,
otherwise with the record before it. -/
def mongoFindByIdAndUpdate (pre post : String) (options : UpdateOptions) : String :=
  if options.new then post else pre

/-- Modelled from the spec: the external validation layer applies a schema's
declared default when the parameter is absent from the request. -/
def NumberSchema.applyDefault (s : NumberSchema) (v : Option Int) : Option Int :=
  match v with
  | some x => some x
  | none => s.defaultVal

lemma selectLoop_lookup (u F : List String) (f : String) :
    (selectLoop u F).lookup f =
      if f ∈ F then
        if f ∈ u then some 1 else if ("-" ++ f) ∈ u then some 0 else none
      else none := by
  induction F with
  | nil => simp [selectLoop]
  | cons g F ih =>
    by_cases hfg : f = g
    · subst hfg
      by_cases h1 : f ∈ u
      · simp [selectLoop, h1, List.lookup_cons]
      · by_cases h2 : ("-" ++ f) ∈ u
        · simp [selectLoop, h1, h2, List.lookup_cons]
        · simp [selectLoop, h1, h2, ih, List.mem_cons]
    · have hbeq : (f == g) = false := beq_false_of_ne hfg
      by_cases h1 : g ∈ u
      · simp [selectLoop, h1, List.lookup_cons, hbeq, ih, List.mem_cons, hfg]
      · by_cases h2 : ("-" ++ g) ∈ u
        · simp [selectLoop, h1, h2, List.lookup_cons, hbeq, ih, List.mem_cons, hfg]
        · simp [selectLoop, h1, h2, ih, List.mem_cons, hfg]

lemma getSelect_lookup (M : Model) (request : Request) (f : String) :
    (_getSelectObjFromFieldsInUrl M request).lookup f =
      if f ∈ M.fields then
        if f ∈ urlFieldTokens request then some 1
        else if ("-" ++ f) ∈ urlFieldTokens request then some 0
        else none
      else none := by
  unfold _getSelectObjFromFieldsInUrl
  by_cases hemp : (urlFieldTokens request).isEmpty
  · have : urlFieldTokens request = [] := List.isEmpty_iff.mp hemp
    simp [hemp, this]
  · simp [hemp, selectLoop_lookup, util.getAllModelFields]

lemma selectLoop_keys (u F : List String) :
    ∀ p ∈ selectLoop u F, p.1 ∈ F := by
  induction F with
  | nil => simp [selectLoop]
  | cons g F ih =>
    intro p hp
    by_cases h1 : g ∈ u
    · simp only [selectLoop, if_pos h1, List.mem_cons] at hp
      rcases hp with hp | hp
      · subst hp; exact List.mem_cons_self _ _
      · exact List.mem_cons_of_mem _ (ih p hp)
    · by_cases h2 : ("-" ++ g) ∈ u
      · simp only [selectLoop, if_neg h1, if_pos h2, List.mem_cons] at hp
        rcases hp with hp | hp
        · subst hp; exact List.mem_cons_self _ _
        · exact List.mem_cons_of_mem _ (ih p hp)
      · simp only [selectLoop, if_neg h1, if_neg h2] at hp
        exact List.mem_cons_of_mem _ (ih p hp)

lemma queryLoop_lookup (q : List (String × String)) (F : List String) (k : String) :
    (queryLoop q F).lookup k =
      if k ∈ F then
        match q.lookup k with
        | none => none
        | some v => if v = "" then none else some v
      else none := by
  induction F with
  | nil => simp [queryLoop]
  | cons g F ih =>
    by_cases hkg : k = g
    · subst hkg
      cases hq : q.lookup k with
      | none => simp [queryLoop, hq, ih, List.mem_cons]
      | some v =>
        by_cases hv : v = ""
        · simp [queryLoop, hq, hv, ih, List.mem_cons]
        · simp [queryLoop, hq, hv, List.lookup_cons]
    · have hbeq : (k == g) = false := beq_false_of_ne hkg
      cases hq : q.lookup g with
      | none => simp [queryLoop, hq, ih, List.mem_cons, hkg]
      | some v =>
        by_cases hv : v = ""
        · simp [queryLoop, hq, hv, ih, List.mem_cons, hkg]
        · simp [queryLoop, hq, hv, List.lookup_cons, hbeq, ih, List.mem_cons, hkg]

lemma queryLoop_keys (q : List (String × String)) (F : List String) :
    ∀ p ∈ queryLoop q F, p.1 ∈ F := by
  induction F with
  | nil => simp [queryLoop]
  | cons g F ih =>
    intro p hp
    cases hq : q.lookup g with
    | none =>
      simp only [queryLoop, hq] at hp
      exact List.mem_cons_of_mem _ (ih p hp)
    | some v =>
      by_cases hv : v = ""
      · simp only [queryLoop, hq, if_pos hv] at hp
        exact List.mem_cons_of_mem _ (ih p hp)
      · simp only [queryLoop, hq, if_neg hv, List.mem_cons] at hp
        rcases hp with hp | hp
        · subst hp; exact List.mem_cons_self _ _
        · exact List.mem_cons_of_mem _ (ih p hp)

lemma lookup_append {β : Type} (l₁ l₂ : List (String × β)) (k : String) :
    (l₁ ++ l₂).lookup k = ((l₁.lookup k).orElse fun _ => l₂.lookup k) := by
  induction l₁ with
  | nil => simp
  | cons p l₁ ih =>
    rcases p with ⟨x, y⟩
    by_cases h : k = x
    · subst h; simp [List.lookup_cons]
    · simp [List.lookup_cons, beq_false_of_ne h, ih]

lemma lookup_map_override (a b : List (String × JoiVal)) (k : String) :
    ((a.map fun p =>
        match b.lookup p.1 with
        | some v => (p.1, v)
        | none => p).lookup k) =
      match a.lookup k, b.lookup k with
      | some _, some v => some v
      | some w, none => some w
      | none, _ => none := by
  induction a with
  | nil => simp
  | cons p a ih =>
    rcases p with ⟨x, y⟩
    by_cases h : k = x
    · subst h
      cases hb : b.lookup k with
      | none => simp [List.lookup_cons, hb]
      | some v => simp [List.lookup_cons, hb]
    · cases hb : b.lookup x with
      | none => simp [List.lookup_cons, beq_false_of_ne h, hb, ih]
      | some v => simp [List.lookup_cons, beq_false_of_ne h, hb, ih]

lemma lookup_filter_keyed {β : Type} (b : List (String × β)) (g : String × β → Bool)
    (k : String) (hg : ∀ p : String × β, p.1 = k → g p = true) :
    (b.filter g).lookup k = b.lookup k := by
  induction b with
  | nil => simp
  | cons q b ih =>
    rcases q with ⟨x, y⟩
    by_cases h : k = x
    · subst h
      have hq : g (k, y) = true := hg (k, y) rfl
      simp [List.filter_cons, hq, List.lookup_cons]
    · cases hq : g (x, y) with
      | true => simp [List.filter_cons, hq, List.lookup_cons, beq_false_of_ne h, ih]
      | false => simp [List.filter_cons, hq, List.lookup_cons, beq_false_of_ne h, ih]

lemma objAssign_lookup_right (a b : List (String × JoiVal)) (k : String) (v : JoiVal)
    (hb : b.lookup k = some v) :
    (objAssign a b).lookup k = some v := by
  unfold objAssign
  rw [lookup_append, lookup_map_override]
  cases ha : a.lookup k with
  | some w => simp [hb]
  | none =>
    simp only [hb, Option.orElse]
    rw [lookup_filter_keyed]
    · exact hb
    · intro p hp
      rw [hp, ha]
      rfl

lemma runStoreCall_spec (store : StoreFn) (c : StoreCall) :
    (runStoreCall store c).calls = [c] ∧
    (runStoreCall store c).replies.length = 1 ∧
    (∀ e, store c = Except.error e →
      (runStoreCall store c).replies = [e] ∧ (runStoreCall store c).logs = [e]) ∧
    (∀ r, store c = Except.ok r →
      (runStoreCall store c).replies = [r] ∧ (runStoreCall store c).logs = []) := by
  cases h : store c <;> simp [runStoreCall, h]

lemma runStoreCall_calls (store : StoreFn) (c : StoreCall) :
    (runStoreCall store c).calls = [c] := by
  cases h : store c <;> simp [runStoreCall, h]

/-- A concrete model descriptor used to instantiate universally quantified
theorems on explicit inputs. -/
def exampleModel : Model :=
  { name := "widget"
  , fields := ["title", "price"]
  , joiValidate := [("title", JoiVal.modelField "title"), ("price", JoiVal.modelField "price")] }

/-- A concrete request with a projection string, one non-empty and one empty
filter value. -/
def exampleRequest : Request :=
  { query := [("fields", "title,-price"), ("title", "Lamp"), ("price", "")]
  , paramsId := "42"
  , payload := "payload" }

/-- A concrete request whose `fields` string names the same field both bare
and `-`-prefixed. -/
def conflictRequest : Request :=
  { query := [("fields", "title,-title")], paramsId := "", payload := "" }

/-- A store oracle that rejects every call. -/
def failingStore : StoreFn := fun _ => Except.error "store-error"

/-- Claim C1, counterexample: with declared fields `["title", "price"]` and
fields string `"title,-title"`, the token `-title` is present and `title` is
declared, yet the projection map does not send `title` to 0 (it sends it
to 1), so the claim's exclude clause fails as universally stated. -/
theorem c1_counterexample :
    ("-" ++ "title") ∈ urlFieldTokens conflictRequest ∧
    "title" ∈ exampleModel.fields ∧
    ¬ (_getSelectObjFromFieldsInUrl exampleModel conflictRequest).lookup "title" = some 0 ∧
    (_getSelectObjFromFieldsInUrl exampleModel conflictRequest).lookup "title" = some 1 := by
  decide

/-- Claim C1 (amended): for every declared field list and fields query
string, the projection map contains exactly the tokens whose base name is
declared; a bare token `f` maps `f` to 1, a prefixed token `-f` maps `f` to 0
provided the bare token `f` is not also present, and every key of the map is
a declared field. -/
theorem c1_theorem (M : Model) (request : Request) (f : String) :
    (((_getSelectObjFromFieldsInUrl M request).lookup f = some 1) ↔
      f ∈ M.fields ∧ f ∈ urlFieldTokens request) ∧
    (((_getSelectObjFromFieldsInUrl M request).lookup f = some 0) ↔
      f ∈ M.fields ∧ f ∉ urlFieldTokens request ∧ ("-" ++ f) ∈ urlFieldTokens request) ∧
    (∀ n : Nat, (_getSelectObjFromFieldsInUrl M request).lookup f = some n → f ∈ M.fields) := by
  rw [getSelect_lookup]
  by_cases hf : f ∈ M.fields
  · by_cases h1 : f ∈ urlFieldTokens request
    · simp [hf, h1]
    · by_cases h2 : ("-" ++ f) ∈ urlFieldTokens request
      · simp [hf, h1, h2]
      · simp [hf, h1, h2]
  · simp [hf]

/-- Claim C2: the filter map contains key `k` with value `v` exactly when `k`
is a declared field and the request query holds `v` under `k` with `v`
non-empty; the value is passed through unchanged as a string. -/
theorem c2_theorem (M : Model) (request : Request) (k v : String) :
    ((_getQueryObjFromFieldsInUrl M request).lookup k = some v) ↔
      (k ∈ M.fields ∧ request.query.lookup k = some v ∧ v ≠ "") := by
  unfold _getQueryObjFromFieldsInUrl
  rw [queryLoop_lookup]
  by_cases hk : k ∈ M.fields
  · cases hq : request.query.lookup k with
    | none => simp [util.getSchemaModelFields, hk, hq]
    | some w =>
      by_cases hw : w = ""
      · simp [util.getSchemaModelFields, hk, hq, hw]
        exact fun h => h.symm
      · simp only [util.getSchemaModelFields, hk, if_true, hq, if_neg hw, Option.some.injEq]
        constructor
        · rintro rfl
          exact ⟨trivial, rfl, hw⟩
        · rintro ⟨-, hv, -⟩
          exact hv
  · simp [util.getSchemaModelFields, hk]

/-- Claim C3: `restify(Model)` returns exactly 7 route descriptors, in the
fixed order POST /name, GET /name/id, PUT /name/id, DELETE /name/id,
GET /name/count, GET /name/list, GET /name/find. -/
theorem c3_theorem (M : Model) :
    (restify M).length = 7 ∧
    (restify M).map (fun r => (r.method, r.path)) =
      [("POST", "/" ++ M.name)
      , ("GET", "/" ++ M.name ++ "/\x7bid\x7d")
      , ("PUT", "/" ++ M.name ++ "/\x7bid\x7d")
      , ("DELETE", "/" ++ M.name ++ "/\x7bid\x7d")
      , ("GET", "/" ++ M.name ++ "/count")
      , ("GET", "/" ++ M.name ++ "/list")
      , ("GET", "/" ++ M.name ++ "/find")] :=
  ⟨rfl, rfl⟩

/-- Claim C4: the validation schema the generated GET /name/id route attaches
to the `id` path parameter is a string schema whose pattern is exactly the
supplied identifier pattern. -/
theorem c4_theorem (M : Model) :
    (_getRoute M).config.validate.params =
      some [("id", JoiVal.str ((Joi.string).regex util.getMongoIdRegexp))] ∧
    ((Joi.string).regex util.getMongoIdRegexp).regexVal = some util.getMongoIdRegexp :=
  ⟨rfl, rfl⟩

/-- Claim C5: the pagination schemas of the list and find routes declare
`limit` as an integer in 1..1000 with default 10 and `offset` as an integer
at least 0 with default 0, so a request supplying neither gets effective
limit 10 and offset 0. -/
theorem c5_theorem (M : Model) :
    _JoiLimit.isInteger = true ∧
    _JoiLimit.minVal = some 1 ∧
    _JoiLimit.maxVal = some 1000 ∧
    _JoiLimit.defaultVal = some 10 ∧
    _JoiOffset.isInteger = true ∧
    _JoiOffset.minVal = some 0 ∧
    _JoiOffset.defaultVal = some 0 ∧
    (_listRoute M).config.validate.query =
      some [("limit", JoiVal.num _JoiLimit)
           , ("offset", JoiVal.num _JoiOffset)
           , ("fields", JoiVal.str _JoiFields)] ∧
    ((_findRoute M).config.validate.query.bind fun q => q.lookup "limit") =
      some (JoiVal.num _JoiLimit) ∧
    ((_findRoute M).config.validate.query.bind fun q => q.lookup "offset") =
      some (JoiVal.num _JoiOffset) ∧
    _JoiLimit.applyDefault none = some 10 ∧
    _JoiOffset.applyDefault none = some 0 := by
  refine ⟨rfl, rfl, rfl, rfl, rfl, rfl, rfl, rfl, ?_, ?_, rfl, rfl⟩
  · exact objAssign_lookup_right _ _ _ _ rfl
  · exact objAssign_lookup_right _ _ _ _ rfl

/-- Claim C6: the PUT /name/id handler makes a single
`findByIdAndUpdate(id, payload, options)` store call with `options.new`
set, and under the store's update semantics that options value yields the
record after the update, not before it. -/
theorem c6_theorem (M : Model) (store : StoreFn) (request : Request) :
    ∃ options : UpdateOptions,
      ((_putRoute M).handler store request).calls =
        [StoreCall.findByIdAndUpdate request.paramsId request.payload options] ∧
      options.new = true ∧
      (∀ pre post : String, mongoFindByIdAndUpdate pre post options = post) :=
  ⟨{ new := true }, runStoreCall_calls store _, rfl, fun _ _ => rfl⟩

/-- Claim C7: every one of the 7 generated routes makes exactly one store
call per request and writes exactly one response; when the call fails the
raw store error is both the single reply and the single logged entry, and
when it succeeds the result is the single reply with nothing logged. -/
theorem c7_theorem (M : Model) (store : StoreFn) (request : Request)
    (r : Route) (hr : r ∈ restify M) :
    ∃ c : StoreCall,
      (r.handler store request).calls = [c] ∧
      (r.handler store request).replies.length = 1 ∧
      (∀ e, store c = Except.error e →
        (r.handler store request).replies = [e] ∧ (r.handler store request).logs = [e]) ∧
      (∀ v, store c = Except.ok v →
        (r.handler store request).replies = [v] ∧ (r.handler store request).logs = []) := by
  simp only [restify, List.mem_cons, List.not_mem_nil, or_false] at hr
  rcases hr with h | h | h | h | h | h | h <;> subst h <;>
    exact ⟨_, runStoreCall_spec store _⟩

/-- Claim C7, witness: the POST route of a concrete model, under a store that
rejects every call, makes one call and replies once with the error, which is
also logged. -/
theorem c7_witness :
    _postRoute exampleModel ∈ restify exampleModel ∧
    ∃ c : StoreCall,
      ((_postRoute exampleModel).handler failingStore exampleRequest).calls = [c] ∧
      ((_postRoute exampleModel).handler failingStore exampleRequest).replies.length = 1 ∧
      (∀ e, failingStore c = Except.error e →
        ((_postRoute exampleModel).handler failingStore exampleRequest).replies = [e] ∧
        ((_postRoute exampleModel).handler failingStore exampleRequest).logs = [e]) ∧
      (∀ v, failingStore c = Except.ok v →
        ((_postRoute exampleModel).handler failingStore exampleRequest).replies = [v] ∧
        ((_postRoute exampleModel).handler failingStore exampleRequest).logs = []) :=
  ⟨List.Mem.head _,
   c7_theorem exampleModel failingStore exampleRequest (_postRoute exampleModel)
     (List.Mem.head _)⟩

/-- Claim C8: every key of the projection map and every key of the filter map
is a declared model field; unrecognized tokens and query parameters are
silently dropped. -/
theorem c8_theorem (M : Model) (request : Request) :
    ((_getSelectObjFromFieldsInUrl M request).map Prod.fst ⊆ M.fields) ∧
    ((_getQueryObjFromFieldsInUrl M request).map Prod.fst ⊆ M.fields) := by
  constructor
  · intro a ha
    rcases List.mem_map.mp ha with ⟨p, hp, rfl⟩
    by_cases hemp : (urlFieldTokens request).isEmpty
    · simp [_getSelectObjFromFieldsInUrl, hemp] at hp
    · simp only [_getSelectObjFromFieldsInUrl, hemp, if_false, Bool.false_eq_true] at hp
      exact selectLoop_keys _ _ p hp
  · intro a ha
    rcases List.mem_map.mp ha with ⟨p, hp, rfl⟩
    exact queryLoop_keys _ _ p hp

/-- Claim C9: when the fields string contains both the bare token and the
`-`-prefixed token for the same declared field, the projection map sends that
field to 1 — inclusion takes precedence over exclusion. -/
theorem c9_theorem (M : Model) (request : Request) (f : String)
    (hf : f ∈ M.fields) (h1 : f ∈ urlFieldTokens request)
    (_h2 : ("-" ++ f) ∈ urlFieldTokens request) :
    (_getSelectObjFromFieldsInUrl M request).lookup f = some 1 := by
  rw [getSelect_lookup, if_pos hf, if_pos h1]

/-- Claim C9, witness: with declared fields `["title", "price"]` and fields
string `"title,-title"`, the projection maps `title` to 1. -/
theorem c9_witness :
    "title" ∈ exampleModel.fields ∧
    "title" ∈ urlFieldTokens conflictRequest ∧
    ("-" ++ "title") ∈ urlFieldTokens conflictRequest ∧
    (_getSelectObjFromFieldsInUrl exampleModel conflictRequest).lookup "title" = some 1 :=
  ⟨by decide, by decide, by decide,
   c9_theorem exampleModel conflictRequest "title" (by decide) (by decide) (by decide)⟩

/-- Claim C10: in the find route's merged query-validation schema, the
entries under `limit`, `offset` and `fields` are always the pagination and
projection schemas, overwriting any same-named entries of the model's own
payload schema. -/
theorem c10_theorem (M : Model) :
    ((_findRoute M).config.validate.query.bind fun q => q.lookup "limit") =
      some (JoiVal.num _JoiLimit) ∧
    ((_findRoute M).config.validate.query.bind fun q => q.lookup "offset") =
      some (JoiVal.num _JoiOffset) ∧
    ((_findRoute M).config.validate.query.bind fun q => q.lookup "fields") =
      some (JoiVal.str _JoiFields) := by
  refine ⟨?_, ?_, ?_⟩
  · exact objAssign_lookup_right _ _ _ _ rfl
  · exact objAssign_lookup_right _ _ _ _ rfl
  · exact objAssign_lookup_right _ _ _ _ rfl

end Restify
